import Mathlib

/-!
Verification development for the Omumba inventory system
(`src/inventory_omumba.py`).

The Python source keeps all state in two workbook files holding tabular
sheets.  We embed the sheets as Lean lists of records and the mutating
operations as pure functions on a `Store` value.  Pandas data frames use
positional labels here (the application always rebuilds the index with
`ignore_index=True` / `reset_index(drop=True)`), so list positions model
data-frame labels faithfully.  The SHA-256 password hash is treated as an
abstract function parameter `hashPw : String → String`; every property of
interest depends only on equality of hash values.
-/

/-! ## Models of the Python string primitives used by the source -/

/-- Characters removed by Python `str.strip()` (the whitespace used by the
source's inputs). -/
def stripChars (l : List Char) : List Char :=
  ((l.dropWhile Char.isWhitespace).reverse.dropWhile Char.isWhitespace).reverse

/-- Model of Python `str.strip()`. -/
def pyStrip (s : String) : String := String.mk (stripChars s.data)

/-- Model of Python `str.lower()` on the ASCII data the source handles. -/
def pyLower (s : String) : String := String.mk (s.data.map Char.toLower)

/-- The truthy-token test the source applies to availability flags:
`str(v).strip().lower() in ("yes", "true", "1", "y", "t")`. -/
def isTruthyToken (s : String) : Bool :=
  let t := pyLower (pyStrip s)
  t == "yes" || t == "true" || t == "1" || t == "y" || t == "t"

/-! ## Model of the numeric coercions

`save_item` coerces the quantity and threshold with `int(float(x or 0))`
and the unit price with `float(x or 0.0)`, falling back to `0` / `0.0` on
any parse failure.  We model `float(...)` on plain decimal literals
(optional sign, digits, optional fractional part); any other text is a
parse failure, matching the `except` fallback. -/

def digitsToNat (l : List Char) : Nat :=
  l.foldl (fun n c => n * 10 + (c.toNat - 48)) 0

def parseDecimalCore (l : List Char) : Option Rat :=
  let ip := l.takeWhile Char.isDigit
  let rest := l.dropWhile Char.isDigit
  match rest with
  | [] => if ip.isEmpty then none else some (digitsToNat ip)
  | '.' :: fp =>
    if fp.all Char.isDigit && !(ip.isEmpty && fp.isEmpty) then
      some ((digitsToNat ip : Rat) + (digitsToNat fp : Rat) / ((10 : Rat) ^ fp.length))
    else none
  | _ => none

def parseDecimal (s : String) : Option Rat :=
  match s.data with
  | '-' :: rest => (parseDecimalCore rest).map (fun q => -q)
  | '+' :: rest => parseDecimalCore rest
  | _ => parseDecimalCore s.data

/-- Truncation toward zero, as Python `int(...)` applies to a float. -/
def ratTrunc (q : Rat) : Int :=
  if q < 0 then -(Rat.floor (-q)) else Rat.floor q

/-- Model of `float(x or 0.0)` wrapped in `try/except` with fallback `0.0`. -/
def pyFloatOr0 (s : String) : Rat :=
  if s = "" then 0 else
    match parseDecimal s with
    | some q => q
    | none => 0

/-- Model of `int(float(x or 0))` wrapped in `try/except` with fallback `0`. -/
def pyIntOr0 (s : String) : Int :=
  if s = "" then 0 else
    match parseDecimal s with
    | some q => ratTrunc q
    | none => 0

/-! ## Positional list helpers

These model positional access on the data frames (`.at`, `.loc`,
`index[...][0]`, `drop`). -/

def getAt {α : Type} (d : α) : List α → Nat → α
  | [], _ => d
  | a :: _, 0 => a
  | _ :: l, n + 1 => getAt d l n

def setAt {α : Type} : List α → Nat → α → List α
  | [], _, _ => []
  | _ :: l, 0, b => b :: l
  | a :: l, n + 1, b => a :: setAt l n b

/-- First index satisfying a predicate, as `df.index[mask][0]` yields. -/
def findIdxOpt {α : Type} (p : α → Bool) : List α → Option Nat
  | [] => none
  | a :: l => if p a then some 0 else (findIdxOpt p l).map (· + 1)

/-- First element satisfying a predicate (`df[mask].iloc[0]`). -/
def findRow {α : Type} (p : α → Bool) : List α → Option α
  | [] => none
  | a :: l => if p a then some a else findRow p l

/-- Number of elements satisfying a predicate. -/
def cntP {α : Type} (p : α → Bool) : List α → Nat
  | [] => 0
  | a :: l => (if p a then 1 else 0) + cntP p l

/-! ## The data model (§3 of the spec, sheet schemas of §6) -/

structure Item where
  productName : String
  category : String
  serialNumber : String
  barcode : String
  available : String
  location : String
  quantity : Int
  unitPrice : Rat
  lowStockThreshold : Int
deriving DecidableEq, Repr, Inhabited

structure IssuedRec where
  productName : String
  category : String
  serialNumber : String
  barcode : String
  issuedTo : String
  department : String
  position : String
  issueDate : String
deriving DecidableEq, Repr, Inhabited

structure HistEvent where
  timestamp : String
  user : String
  action : String
  details : String
deriving DecidableEq, Repr, Inhabited

structure Store where
  inventory : List Item
  issued : List IssuedRec
  history : List HistEvent
deriving DecidableEq, Repr, Inhabited

def emptyStore : Store := ⟨[], [], []⟩

structure UserRow where
  username : String
  passwordHash : String
  role : String
  active : Bool
deriving DecidableEq, Repr, Inhabited

/-! ## Identity lookup (`_find_item_index`, source lines 645-656) -/

/-- Translation of `_find_item_index`: try the serial column when the
serial text is non-empty; on no hit, fall through to the barcode column
when the barcode text is non-empty. -/
def findItemIndex (inv : List Item) (serial barcode : String) : Option Nat :=
  match (if serial ≠ "" then findIdxOpt (fun it => it.serialNumber == serial) inv else none) with
  | some i => some i
  | none =>
    if barcode ≠ "" then findIdxOpt (fun it => it.barcode == barcode) inv else none

/-! ## Add with merge (`save_item` inside `_item_form`, lines 577-632) -/

structure RawForm where
  productName : String
  category : String
  serialNumber : String
  barcode : String
  available : String
  location : String
  quantity : String
  unitPrice : String
  lowStockThreshold : String
deriving DecidableEq, Repr, Inhabited

/-- The coerced row `save_item` builds before merging: every entry is
`.strip()`ped, quantity and threshold parsed as ints, price as a float,
and an empty availability defaulted to `"Yes"`. -/
structure NewRow where
  productName : String
  category : String
  serialNumber : String
  barcode : String
  available : String
  location : String
  quantity : Int
  unitPrice : Rat
  lowStockThreshold : Int
deriving DecidableEq, Repr, Inhabited

def coerceForm (f : RawForm) : NewRow :=
  let avail := pyStrip f.available
  { productName := pyStrip f.productName
    category := pyStrip f.category
    serialNumber := pyStrip f.serialNumber
    barcode := pyStrip f.barcode
    available := if avail = "" then "Yes" else avail
    location := pyStrip f.location
    quantity := pyIntOr0 (pyStrip f.quantity)
    unitPrice := pyFloatOr0 (pyStrip f.unitPrice)
    lowStockThreshold := pyIntOr0 (pyStrip f.lowStockThreshold) }

/-- The merge branch of `save_item`.  The source guards each overwrite by
`v != ""`, but that comparison runs after coercion: the quantity is added,
and the price and threshold are numbers at that point, so they compare
unequal to `""` and always overwrite; the coerced availability is never
empty either. -/
def mergeRow (old : Item) (nr : NewRow) : Item :=
  { productName := if nr.productName ≠ "" then nr.productName else old.productName
    category := if nr.category ≠ "" then nr.category else old.category
    serialNumber := if nr.serialNumber ≠ "" then nr.serialNumber else old.serialNumber
    barcode := if nr.barcode ≠ "" then nr.barcode else old.barcode
    available := if nr.available ≠ "" then nr.available else old.available
    location := if nr.location ≠ "" then nr.location else old.location
    quantity := old.quantity + nr.quantity
    unitPrice := nr.unitPrice
    lowStockThreshold := nr.lowStockThreshold }

def itemOfRow (nr : NewRow) : Item :=
  ⟨nr.productName, nr.category, nr.serialNumber, nr.barcode, nr.available,
   nr.location, nr.quantity, nr.unitPrice, nr.lowStockThreshold⟩

inductive SaveErr where
  | missingIdentity
deriving DecidableEq, Repr

def saveItem (s : Store) (f : RawForm) (user now : String) : Store × Option SaveErr :=
  let nr := coerceForm f
  if nr.serialNumber = "" && nr.barcode = "" then (s, some SaveErr.missingIdentity)
  else
    match findItemIndex s.inventory nr.serialNumber nr.barcode with
    | some ix =>
      let old := getAt default s.inventory ix
      ({ inventory := setAt s.inventory ix (mergeRow old nr)
         issued := s.issued
         history := s.history ++
           [⟨now, user, "EDIT", "Merge add SN:" ++ nr.serialNumber ++ " BC:" ++ nr.barcode⟩] },
       none)
    | none =>
      ({ inventory := s.inventory ++ [itemOfRow nr]
         issued := s.issued
         history := s.history ++
           [⟨now, user, "ADD", "SN:" ++ nr.serialNumber ++ " BC:" ++ nr.barcode⟩] },
       none)

/-! ## Issue (`do_issue` inside `issue_item_form`, lines 710-751) -/

inductive IssueErr where
  | notFound
  | permission
  | alreadyIssued
  | missingStaff
deriving DecidableEq, Repr

/-- The state mutation shared by the single and batch issue paths: mark
the row unavailable and append the snapshot record. -/
def issueMut (s : Store) (ix : Nat) (staff dept pos now : String) : Store :=
  let r := getAt default s.inventory ix
  { inventory := setAt s.inventory ix { r with available := "No" }
    issued := s.issued ++
      [⟨r.productName, r.category, r.serialNumber, r.barcode, staff, dept, pos, now⟩]
    history := s.history }

def doIssue (s : Store) (isClerk : Bool) (codeRaw staffRaw dept pos now user : String) :
    Store × Option IssueErr :=
  let code := pyStrip codeRaw
  match findItemIndex s.inventory code code with
  | none => (s, some IssueErr.notFound)
  | some ix =>
    if !isClerk then (s, some IssueErr.permission)
    else
      let r := getAt default s.inventory ix
      if !(isTruthyToken r.available) then (s, some IssueErr.alreadyIssued)
      else
        let staff := pyStrip staffRaw
        if staff = "" then (s, some IssueErr.missingStaff)
        else
          let s1 := issueMut s ix staff dept pos now
          ({ s1 with history := s1.history ++
              [⟨now, user, "ISSUE",
                (if r.serialNumber ≠ "" then r.serialNumber else r.barcode) ++ " -> " ++ staff⟩] },
           none)

/-! ## Return (`do_return` inside `return_item`, lines 880-910) -/

inductive ReturnErr where
  | notFound
deriving DecidableEq, Repr

/-- The linear scan for the first issued row whose serial or barcode
equals the scanned code. -/
def findIssuedIdx (issued : List IssuedRec) (code : String) : Option Nat :=
  findIdxOpt (fun r => r.serialNumber == code || r.barcode == code) issued

/-- The inventory row fabricated on return when no row matches. -/
def fabricatedItem (r : IssuedRec) : Item :=
  ⟨r.productName, r.category, r.serialNumber, r.barcode, "Yes", "", 1, 0, 0⟩

/-- The state mutation shared by the single and batch return paths. -/
def returnMut (s : Store) (j : Nat) : Store :=
  let row := getAt default s.issued j
  let inv :=
    match findItemIndex s.inventory row.serialNumber row.barcode with
    | none => s.inventory ++ [fabricatedItem row]
    | some i => setAt s.inventory i { getAt default s.inventory i with available := "Yes" }
  { inventory := inv, issued := s.issued.eraseIdx j, history := s.history }

def doReturn (s : Store) (codeRaw user now : String) : Store × Option ReturnErr :=
  let code := pyStrip codeRaw
  match findIssuedIdx s.issued code with
  | none => (s, some ReturnErr.notFound)
  | some j =>
    let row := getAt default s.issued j
    let s1 := returnMut s j
    ({ s1 with history := s1.history ++
        [⟨now, user, "RETURN",
          if row.serialNumber ≠ "" then row.serialNumber else row.barcode⟩] },
     none)

/-! ## Batch issue / batch return (`process` closures, lines 788-821 and 929-961) -/

def batchIssueStep (staffRaw dept pos now : String) (acc : Store × Nat) (code : String) :
    Store × Nat :=
  let s := acc.1
  match findItemIndex s.inventory code code with
  | none => acc
  | some ix =>
    let r := getAt default s.inventory ix
    if pyLower (pyStrip r.available) ≠ "yes" then acc
    else (issueMut s ix staffRaw dept pos now, acc.2 + 1)

def batchIssue (s : Store) (staffRaw dept pos now user : String) (lines : List String) :
    Store × Nat :=
  if pyStrip staffRaw = "" then (s, 0)
  else
    let codes := (lines.map pyStrip).filter (fun c => c ≠ "")
    let r := codes.foldl (batchIssueStep staffRaw dept pos now) (s, 0)
    if r.2 ≠ 0 then
      ({ r.1 with history := r.1.history ++
          [⟨now, user, "ISSUE_BATCH", toString r.2 ++ " items -> " ++ staffRaw⟩] }, r.2)
    else r

def batchReturnStep (acc : Store × Nat) (code : String) : Store × Nat :=
  let s := acc.1
  match findIssuedIdx s.issued code with
  | none => acc
  | some j => (returnMut s j, acc.2 + 1)

def batchReturn (s : Store) (now user : String) (lines : List String) : Store × Nat :=
  let codes := (lines.map pyStrip).filter (fun c => c ≠ "")
  let r := codes.foldl batchReturnStep (s, 0)
  if r.2 ≠ 0 then
    ({ r.1 with history := r.1.history ++
        [⟨now, user, "RETURN_BATCH", toString r.2 ++ " items"⟩] }, r.2)
  else r

/-! ## Authentication (`check_pw` line 64, `_login` lines 304-319) -/

def checkPw (hashPw : String → String) (pw pwHash : String) : Bool :=
  hashPw pw == pwHash

def roleOf (r : String) : String :=
  if r = "Admin" || r = "Clerk" || r = "Viewer" then r else "Viewer"

inductive LoginResult where
  /-- Successful login with the (stripped) username and effective role. -/
  | ok (user role : String)
  /-- The single undifferentiated failure outcome
  (message box text `Invalid username or password.`). -/
  | invalid
deriving DecidableEq, Repr

def loginModel (hashPw : String → String) (users : List UserRow) (uRaw pRaw : String) :
    LoginResult :=
  let u := pyStrip uRaw
  let p := pyStrip pRaw
  match findRow (fun r => r.username == u && r.active) users with
  | some row =>
    if checkPw hashPw p row.passwordHash then LoginResult.ok u (roleOf row.role)
    else LoginResult.invalid
  | none => LoginResult.invalid

/-! ## Admin self-heal (`ensure_admin_user`, lines 229-243) -/

def ensureAdminUser (hashPw : String → String) (users : List UserRow)
    (history : List HistEvent) (now : String) : List UserRow × List HistEvent :=
  let defaultHash := hashPw "Admin@2028"
  match findIdxOpt (fun r => pyLower r.username == "admin") users with
  | some i =>
    let r := getAt default users i
    (setAt users i
      { r with role := "Admin", active := true,
               passwordHash := if pyStrip r.passwordHash = "" then defaultHash
                               else r.passwordHash },
     history)
  | none =>
    (users ++ [⟨"admin", defaultHash, "Admin", true⟩],
     history ++ [⟨now, "system", "SEED_ADMIN", "Built-in admin created"⟩])

/-! ## Backup policy (`settings_to_dict` lines 126-134,
`_backup_file_if_enabled` lines 137-152, `save_sheet` lines 213-218)

The settings sheet is a list of key/value rows; `none` models a settings
store that cannot be read (missing file, unreadable sheet, or missing
`Key`/`Value` columns).  The copy itself can fail; `copySucceeds` models
that, since the source swallows the exception. -/

def settingsToDictGet (rows : List (String × String)) (key dflt : String) : String :=
  match findRow (fun kv => pyStrip kv.1 == key) rows.reverse with
  | some kv => kv.2
  | none => dflt

def backupEnabledSetting (settings : Option (List (String × String))) : String :=
  match settings with
  | none => "1"
  | some rows => settingsToDictGet rows "backup_enabled" "1"

/-- Whether a backup file is produced: the source returns early when the
settings are readable and hold a value other than `"1"`; otherwise it
copies the target when it exists, ignoring copy failures. -/
def backupFileIfEnabled (settings : Option (List (String × String)))
    (targetExists copySucceeds : Bool) : Bool :=
  if (match settings with
      | none => false
      | some rows => settingsToDictGet rows "backup_enabled" "1" ≠ "1") then false
  else targetExists && copySucceeds

structure SaveSheetResult where
  backupMade : Bool
  sheetWritten : Bool
deriving DecidableEq, Repr

/-- `save_sheet` runs `_backup_file_if_enabled` and then always writes the
sheet: every exception inside the backup helper is swallowed there, so the
writer is reached unconditionally. -/
def saveSheetModel (settings : Option (List (String × String)))
    (targetExists copySucceeds : Bool) : SaveSheetResult :=
  { backupMade := backupFileIfEnabled settings targetExists copySucceeds
    sheetWritten := true }

/-! ## The C1 invariant and the operation language

`matchRec` decides whether an issued record carries the same
serial-or-barcode identity as an inventory item, with the serial taking
priority exactly as in the identity rule of the spec's glossary. -/

def matchRec (it : Item) (r : IssuedRec) : Bool :=
  if it.serialNumber ≠ "" then r.serialNumber == it.serialNumber
  else if it.barcode ≠ "" then r.barcode == it.barcode
  else false

/-- The invariant claimed by the spec: `Available="No"` iff exactly one
matching issued record, and `Available="Yes"` implies none. -/
def checkInvariantC1 (s : Store) : Bool :=
  s.inventory.all fun it =>
    ((it.available == "No") == (cntP (matchRec it) s.issued == 1)) &&
    (!(it.available == "Yes") || (cntP (matchRec it) s.issued == 0))

/-- The mutating operations of the store, as invoked by the UI layer. -/
inductive ROp where
  | add (f : RawForm) (user now : String)
  | issue (isClerk : Bool) (code staff dept pos now user : String)
  | ret (code user now : String)
  | bIssue (staff dept pos now user : String) (lines : List String)
  | bReturn (now user : String) (lines : List String)

def applyROp (s : Store) (op : ROp) : Store :=
  match op with
  | ROp.add f u n => (saveItem s f u n).1
  | ROp.issue c code st d p n u => (doIssue s c code st d p n u).1
  | ROp.ret code u n => (doReturn s code u n).1
  | ROp.bIssue st d p n u lines => (batchIssue s st d p n u lines).1
  | ROp.bReturn n u lines => (batchReturn s n u lines).1

def applyROps (s : Store) (ops : List ROp) : Store := ops.foldl applyROp s

/-- A fresh add: no explicit availability override, and the coerced serial
and barcode match no existing inventory row. -/
def freshAdd (s : Store) (f : RawForm) : Bool :=
  let nr := coerceForm f
  pyStrip f.available == "" &&
  (nr.serialNumber == "" ||
    s.inventory.all (fun it => !(it.serialNumber == nr.serialNumber))) &&
  (nr.barcode == "" ||
    s.inventory.all (fun it => !(it.barcode == nr.barcode)))

/-- States reachable from the empty store by fresh adds, issues, returns
and the batch variants. -/
inductive ReachableR : Store → Prop where
  | empty : ReachableR emptyStore
  | add (s : Store) (f : RawForm) (u n : String) :
      ReachableR s → freshAdd s f = true → ReachableR (saveItem s f u n).1
  | issue (s : Store) (c : Bool) (code st d p n u : String) :
      ReachableR s → ReachableR (doIssue s c code st d p n u).1
  | ret (s : Store) (code u n : String) :
      ReachableR s → ReachableR (doReturn s code u n).1
  | bIssue (s : Store) (st d p n u : String) (lines : List String) :
      ReachableR s → ReachableR (batchIssue s st d p n u lines).1
  | bReturn (s : Store) (n u : String) (lines : List String) :
      ReachableR s → ReachableR (batchReturn s n u lines).1

/-! ## Lemmas about the positional list helpers -/

theorem length_setAt {α : Type} (l : List α) (i : Nat) (v : α) :
    (setAt l i v).length = l.length := by
  induction l generalizing i with
  | nil => rfl
  | cons a l ih =>
    cases i with
    | zero => rfl
    | succ n => simp [setAt, ih]

theorem getAt_setAt_eq {α : Type} (d : α) (l : List α) (i : Nat) (v : α)
    (h : i < l.length) : getAt d (setAt l i v) i = v := by
  induction l generalizing i with
  | nil => simp at h
  | cons a l ih =>
    cases i with
    | zero => rfl
    | succ n => exact ih n (Nat.lt_of_succ_lt_succ h)

theorem getAt_setAt_ne {α : Type} (d : α) (l : List α) (i j : Nat) (v : α)
    (h : i ≠ j) : getAt d (setAt l i v) j = getAt d l j := by
  induction l generalizing i j with
  | nil => cases j <;> rfl
  | cons a l ih =>
    cases i with
    | zero =>
      cases j with
      | zero => exact absurd rfl h
      | succ m => rfl
    | succ n =>
      cases j with
      | zero => rfl
      | succ m => exact ih n m fun hc => h (by rw [hc])

theorem getAt_append_left {α : Type} (d : α) (l m : List α) (i : Nat)
    (h : i < l.length) : getAt d (l ++ m) i = getAt d l i := by
  induction l generalizing i with
  | nil => simp at h
  | cons a l ih =>
    cases i with
    | zero => rfl
    | succ n => exact ih n (Nat.lt_of_succ_lt_succ h)

theorem getAt_append_last {α : Type} (d : α) (l : List α) (x : α) :
    getAt d (l ++ [x]) l.length = x := by
  induction l with
  | nil => rfl
  | cons a l ih => exact ih

theorem getAt_mem {α : Type} (d : α) (l : List α) (i : Nat) (h : i < l.length) :
    getAt d l i ∈ l := by
  induction l generalizing i with
  | nil => simp at h
  | cons a l ih =>
    cases i with
    | zero => exact List.mem_cons_self a l
    | succ n => exact List.mem_cons_of_mem a (ih n (Nat.lt_of_succ_lt_succ h))

theorem mem_getAt {α : Type} (d : α) (l : List α) (a : α) (h : a ∈ l) :
    ∃ i, i < l.length ∧ getAt d l i = a := by
  induction l with
  | nil => simp at h
  | cons b l ih =>
    rcases List.mem_cons.mp h with h | h
    · exact ⟨0, Nat.succ_pos _, h.symm⟩
    · obtain ⟨i, hi, hg⟩ := ih h
      exact ⟨i + 1, Nat.succ_lt_succ hi, hg⟩

theorem findIdxOpt_eq_none {α : Type} (p : α → Bool) (l : List α) :
    findIdxOpt p l = none ↔ ∀ x ∈ l, p x = false := by
  induction l with
  | nil => simp [findIdxOpt]
  | cons a l ih =>
    by_cases h : p a = true
    · simp [findIdxOpt, h]
    · simp only [Bool.not_eq_true] at h
      simp [findIdxOpt, h, Option.map_eq_none, ih]

theorem findIdxOpt_some_lt {α : Type} (p : α → Bool) (l : List α) (i : Nat)
    (h : findIdxOpt p l = some i) : i < l.length := by
  induction l generalizing i with
  | nil => simp [findIdxOpt] at h
  | cons a l ih =>
    by_cases hp : p a = true
    · simp [findIdxOpt, hp] at h
      subst h
      simp only [List.length_cons]
      omega
    · simp only [Bool.not_eq_true] at hp
      simp only [findIdxOpt, hp, if_neg] at h
      rcases Option.map_eq_some.mp (by simpa using h) with ⟨j, hj, rfl⟩
      exact Nat.succ_lt_succ (ih j hj)

theorem findIdxOpt_some_p {α : Type} (d : α) (p : α → Bool) (l : List α) (i : Nat)
    (h : findIdxOpt p l = some i) : p (getAt d l i) = true := by
  induction l generalizing i with
  | nil => simp [findIdxOpt] at h
  | cons a l ih =>
    by_cases hp : p a = true
    · simp [findIdxOpt, hp] at h
      subst h
      exact hp
    · simp only [Bool.not_eq_true] at hp
      simp only [findIdxOpt, hp, if_neg] at h
      rcases Option.map_eq_some.mp (by simpa using h) with ⟨j, hj, rfl⟩
      exact ih j hj

theorem findIdxOpt_isSome_of {α : Type} (d : α) (p : α → Bool) (l : List α) (i : Nat)
    (hi : i < l.length) (hp : p (getAt d l i) = true) :
    ∃ j, findIdxOpt p l = some j := by
  induction l generalizing i with
  | nil => simp at hi
  | cons a l ih =>
    by_cases h : p a = true
    · exact ⟨0, by simp [findIdxOpt, h]⟩
    · simp only [Bool.not_eq_true] at h
      cases i with
      | zero => simp [getAt] at hp; rw [hp] at h; cases h
      | succ n =>
        obtain ⟨j, hj⟩ := ih n (Nat.lt_of_succ_lt_succ hi) hp
        exact ⟨j + 1, by simp [findIdxOpt, h, hj]⟩

theorem findIdxOpt_setAt {α : Type} (d : α) (p : α → Bool) (l : List α) (i : Nat) (v : α)
    (h : p v = p (getAt d l i)) : findIdxOpt p (setAt l i v) = findIdxOpt p l := by
  induction l generalizing i with
  | nil => rfl
  | cons a l ih =>
    cases i with
    | zero => simp only [setAt, findIdxOpt, getAt] at *; rw [h]
    | succ n => simp only [setAt, findIdxOpt, getAt] at *; rw [ih n h]

theorem cntP_append {α : Type} (p : α → Bool) (l m : List α) :
    cntP p (l ++ m) = cntP p l + cntP p m := by
  induction l with
  | nil => simp [cntP]
  | cons a l ih => simp [cntP, ih]; omega

theorem cntP_eq_zero {α : Type} (p : α → Bool) (l : List α) :
    cntP p l = 0 ↔ ∀ x ∈ l, p x = false := by
  induction l with
  | nil => simp [cntP]
  | cons a l ih =>
    by_cases h : p a = true
    · simp [cntP, h]
    · simp only [Bool.not_eq_true] at h
      simp [cntP, h, ih]

theorem cntP_eraseIdx {α : Type} (d : α) (p : α → Bool) (l : List α) (j : Nat)
    (h : j < l.length) :
    cntP p (l.eraseIdx j) + (if p (getAt d l j) then 1 else 0) = cntP p l := by
  induction l generalizing j with
  | nil => simp at h
  | cons a l ih =>
    cases j with
    | zero => simp [List.eraseIdx, cntP, getAt]; omega
    | succ n =>
      have := ih n (Nat.lt_of_succ_lt_succ h)
      simp only [List.eraseIdx, cntP, getAt]
      omega

theorem mem_of_eraseIdx {α : Type} (l : List α) (j : Nat) (x : α)
    (h : x ∈ l.eraseIdx j) : x ∈ l := by
  induction l generalizing j with
  | nil => simp [List.eraseIdx] at h
  | cons a l ih =>
    cases j with
    | zero => exact List.mem_cons_of_mem a h
    | succ n =>
      rcases List.mem_cons.mp h with h | h
      · exact h ▸ List.mem_cons_self a l
      · exact List.mem_cons_of_mem a (ih n h)

/-! ## C10: login strips surrounding whitespace -/

/-- C10: `_login` strips leading and trailing whitespace from both the
supplied username and password before any comparison, so two login
attempts whose username and password differ only in surrounding
whitespace (i.e. agree after stripping) produce identical outcomes,
including the resulting user and role. -/
theorem c10_login_strips_whitespace
    (hashPw : String → String) (users : List UserRow) (u1 p1 u2 p2 : String)
    (hu : pyStrip u1 = pyStrip u2) (hp : pyStrip p1 = pyStrip p2) :
    loginModel hashPw users u1 p1 = loginModel hashPw users u2 p2 := by
  simp only [loginModel, hu, hp]

theorem c10_login_strips_whitespace_witness :
    loginModel (fun s => s) [⟨"admin", "pw", "Admin", true⟩] "  admin" "pw  " =
      loginModel (fun s => s) [⟨"admin", "pw", "Admin", true⟩] "admin  " "  pw" :=
  c10_login_strips_whitespace (fun s => s) [⟨"admin", "pw", "Admin", true⟩]
    "  admin" "pw  " "admin  " "  pw" (by decide) (by decide)

/-! ## C6: settings-gated backup before every save -/

/-- C6: before a sheet is saved the backup step runs: with the persisted
`backup_enabled` value equal to `"1"` — which is also the value used when
the setting is absent or the settings store is unreadable — and the
target file existing, the file is copied (when the copy itself succeeds);
with any other persisted value no backup is produced; and a failing
backup copy never prevents the sheet write. -/
theorem c6_backup_policy
    (settings : Option (List (String × String))) (tE cOk : Bool) :
    backupEnabledSetting none = "1" ∧
    (backupEnabledSetting settings = "1" →
      backupFileIfEnabled settings tE cOk = (tE && cOk)) ∧
    (backupEnabledSetting settings ≠ "1" →
      backupFileIfEnabled settings tE cOk = false) ∧
    (saveSheetModel settings tE false).sheetWritten = true := by
  refine ⟨rfl, ?_, ?_, rfl⟩
  · intro h
    cases settings with
    | none => rfl
    | some rows =>
      simp only [backupEnabledSetting] at h
      simp [backupFileIfEnabled, h]
  · intro h
    cases settings with
    | none => exact absurd rfl h
    | some rows =>
      simp only [backupEnabledSetting] at h
      simp [backupFileIfEnabled, h]

theorem c6_backup_policy_witness :
    backupFileIfEnabled (some [("backup_enabled", "1")]) true true = (true && true) ∧
    backupFileIfEnabled (some [("backup_enabled", "0")]) true true = false ∧
    backupFileIfEnabled none true true = (true && true) ∧
    (saveSheetModel (some [("backup_enabled", "1")]) true false).sheetWritten = true :=
  ⟨(c6_backup_policy (some [("backup_enabled", "1")]) true true).2.1 (by decide),
   (c6_backup_policy (some [("backup_enabled", "0")]) true true).2.2.1 (by decide),
   (c6_backup_policy none true true).2.1 (by decide),
   (c6_backup_policy (some [("backup_enabled", "1")]) true false).2.2.2⟩

/-! ## C3: the identity lookup rule -/

/-- Follows the spec's words for §4.3: with a non-empty serial the result
is the first serial match (and nothing else); otherwise, with a non-empty
barcode, the first barcode match; otherwise no match. -/
def findByIdentitySpec (inv : List Item) (serial barcode : String) : Option Nat :=
  if serial ≠ "" then findIdxOpt (fun it => it.serialNumber == serial) inv
  else if barcode ≠ "" then findIdxOpt (fun it => it.barcode == barcode) inv
  else none

/-- The amended rule actually implemented: a non-empty serial with a hit
wins; otherwise — including a serial miss, which falls through — a
non-empty barcode with a hit; otherwise no match. -/
def findByIdentityAmended (inv : List Item) (serial barcode : String) : Option Nat :=
  if serial ≠ "" ∧ (findIdxOpt (fun it => it.serialNumber == serial) inv).isSome then
    findIdxOpt (fun it => it.serialNumber == serial) inv
  else if barcode ≠ "" then findIdxOpt (fun it => it.barcode == barcode) inv
  else none

/-- C3 counterexample: with one row `(serial "S", barcode "B")`, looking
up `(serial "X", barcode "B")` should, per the claim, return no match
(the non-empty serial has no exact match); the code instead falls through
and returns the barcode match at index 0. -/
theorem c3_lookup_counterexample :
    findItemIndex [⟨"P", "", "S", "B", "Yes", "", 1, 0, 0⟩] "X" "B" = some 0 ∧
    findByIdentitySpec [⟨"P", "", "S", "B", "Yes", "", 1, 0, 0⟩] "X" "B" = none := by
  decide

/-- C3 amended: `_find_item_index` returns the first row whose serial
matches a non-empty serial when there is one, and otherwise — also when
the serial is non-empty but unmatched — the first row whose barcode
matches a non-empty barcode, else no match. -/
theorem c3_lookup_amended (inv : List Item) (serial barcode : String) :
    findItemIndex inv serial barcode = findByIdentityAmended inv serial barcode := by
  simp only [findItemIndex, findByIdentityAmended]
  by_cases hs : serial = ""
  · simp [hs]
  · simp only [hs, ite_true, if_neg, ne_eq, not_false_iff, true_and]
    cases hfind : findIdxOpt (fun it => it.serialNumber == serial) inv with
    | none => simp [hfind]
    | some i => simp [hfind]

theorem findItemIndex_some_lt (inv : List Item) (a b : String) (ix : Nat)
    (h : findItemIndex inv a b = some ix) : ix < inv.length := by
  simp only [findItemIndex] at h
  cases hf : (if a ≠ "" then findIdxOpt (fun it => it.serialNumber == a) inv else none) with
  | some i =>
    rw [hf] at h
    cases h
    by_cases ha : a = ""
    · simp [ha] at hf
    · simp only [ha, ne_eq, not_false_iff, if_pos] at hf
      exact findIdxOpt_some_lt _ _ _ hf
  | none =>
    rw [hf] at h
    by_cases hb : b = ""
    · simp [hb] at h
    · simp only [hb, ne_eq, not_false_iff, if_pos] at h
      exact findIdxOpt_some_lt _ _ _ h

theorem findItemIndex_empty_empty (inv : List Item) :
    findItemIndex inv "" "" = none := rfl

/-! ## C4: every issue failure leaves the store untouched -/

/-- C4: an issue request fails — a `some` error is surfaced — whenever
the scanned code matches no inventory row, or the matched row's
availability flag is not truthy (already issued), or the supplied staff
identity is blank; and in every such case the whole store (Inventory,
Issued and History sheets alike) is returned unchanged, with no partial
mutation and no audit entry. -/
theorem c4_issue_failure_unchanged
    (s : Store) (isClerk : Bool) (codeRaw staffRaw dept pos now user : String)
    (h : findItemIndex s.inventory (pyStrip codeRaw) (pyStrip codeRaw) = none ∨
         (∃ ix, findItemIndex s.inventory (pyStrip codeRaw) (pyStrip codeRaw) = some ix ∧
            isTruthyToken (getAt default s.inventory ix).available = false) ∨
         pyStrip staffRaw = "") :
    (doIssue s isClerk codeRaw staffRaw dept pos now user).1 = s ∧
    (doIssue s isClerk codeRaw staffRaw dept pos now user).2 ≠ none := by
  simp only [doIssue]
  cases hf : findItemIndex s.inventory (pyStrip codeRaw) (pyStrip codeRaw) with
  | none => exact ⟨rfl, by simp⟩
  | some ix =>
    cases isClerk with
    | false => exact ⟨rfl, by simp⟩
    | true =>
      simp only [Bool.not_true, Bool.false_eq_true, if_false]
      cases htr : isTruthyToken (getAt default s.inventory ix).available with
      | false => exact ⟨rfl, by simp⟩
      | true =>
        simp only [Bool.not_true, Bool.false_eq_true, if_false]
        by_cases hst : pyStrip staffRaw = ""
        · rw [if_pos hst]
          exact ⟨rfl, by simp⟩
        · exfalso
          rcases h with h | ⟨ix', hix', htr'⟩ | h
          · rw [hf] at h; cases h
          · rw [hf] at hix'; cases hix'; rw [htr] at htr'; cases htr'
          · exact hst h

theorem c4_issue_failure_unchanged_witness :
    (doIssue ⟨[⟨"P", "", "S", "", "No", "", 1, 0, 0⟩], [], []⟩ true "S" "alice" "d" "p" "t" "u").1 =
      ⟨[⟨"P", "", "S", "", "No", "", 1, 0, 0⟩], [], []⟩ ∧
    (doIssue ⟨[⟨"P", "", "S", "", "No", "", 1, 0, 0⟩], [], []⟩ true "S" "alice" "d" "p" "t" "u").2 ≠
      none :=
  c4_issue_failure_unchanged ⟨[⟨"P", "", "S", "", "No", "", 1, 0, 0⟩], [], []⟩
    true "S" "alice" "d" "p" "t" "u" (Or.inr (Or.inl ⟨0, by decide, by decide⟩))

/-! ## C2: merge semantics of add -/

/-- C2 counterexample: an existing row `(serial "SN1", price 10,
threshold 2, available "No")` merged with an add that supplies quantity 3
and leaves Unit Price, Low Stock Threshold and Available empty.  The
claim says the empty fields leave the stored values unchanged; the code
instead resets price to 0, threshold to 0 and availability to "Yes". -/
theorem c2_merge_counterexample :
    (getAt default
        ((saveItem ⟨[⟨"Widget", "Tools", "SN1", "", "No", "Shelf", 5, 10, 2⟩], [], []⟩
            ⟨"", "", "SN1", "", "", "", "3", "", ""⟩ "u" "t").1.inventory) 0).unitPrice = 0 ∧
    (getAt default
        ((saveItem ⟨[⟨"Widget", "Tools", "SN1", "", "No", "Shelf", 5, 10, 2⟩], [], []⟩
            ⟨"", "", "SN1", "", "", "", "3", "", ""⟩ "u" "t").1.inventory) 0).lowStockThreshold
      = 0 ∧
    (getAt default
        ((saveItem ⟨[⟨"Widget", "Tools", "SN1", "", "No", "Shelf", 5, 10, 2⟩], [], []⟩
            ⟨"", "", "SN1", "", "", "", "3", "", ""⟩ "u" "t").1.inventory) 0).available
      = "Yes" ∧
    (getAt default
        ((saveItem ⟨[⟨"Widget", "Tools", "SN1", "", "No", "Shelf", 5, 10, 2⟩], [], []⟩
            ⟨"", "", "SN1", "", "", "", "3", "", ""⟩ "u" "t").1.inventory) 0).quantity = 8 := by
  decide

theorem findItemIndex_nil (a b : String) : findItemIndex [] a b = none := by
  by_cases ha : a = "" <;> by_cases hb : b = "" <;>
    simp [findItemIndex, ha, hb, findIdxOpt]

theorem saveItem_guard_false (f : RawForm)
    (hne : ¬((coerceForm f).serialNumber = "" ∧ (coerceForm f).barcode = "")) :
    ((coerceForm f).serialNumber = "" && (coerceForm f).barcode = "") = false := by
  by_cases h1 : (coerceForm f).serialNumber = ""
  · by_cases h2 : (coerceForm f).barcode = ""
    · exact absurd ⟨h1, h2⟩ hne
    · simp [h1, h2]
  · simp [h1]

theorem coerceForm_available_ne (f : RawForm) : (coerceForm f).available ≠ "" := by
  simp only [coerceForm]
  by_cases h : pyStrip f.available = "" <;> simp [h]

theorem saveItem_merge (s : Store) (f : RawForm) (u n : String) (ix : Nat)
    (hf : findItemIndex s.inventory (coerceForm f).serialNumber (coerceForm f).barcode
            = some ix) :
    (saveItem s f u n).1.inventory
      = setAt s.inventory ix (mergeRow (getAt default s.inventory ix) (coerceForm f)) := by
  have hne : ¬((coerceForm f).serialNumber = "" ∧ (coerceForm f).barcode = "") := by
    rintro ⟨h1, h2⟩
    rw [h1, h2, findItemIndex_empty_empty] at hf
    cases hf
  simp [saveItem, saveItem_guard_false f hne, hf]

theorem saveItem_append (s : Store) (f : RawForm) (u n : String)
    (hne : ¬((coerceForm f).serialNumber = "" ∧ (coerceForm f).barcode = ""))
    (hf : findItemIndex s.inventory (coerceForm f).serialNumber (coerceForm f).barcode
            = none) :
    (saveItem s f u n).1.inventory = s.inventory ++ [itemOfRow (coerceForm f)] := by
  simp [saveItem, saveItem_guard_false f hne, hf]

/-- C2 (amended): when an add matches an existing row, the row's quantity
becomes its old quantity plus the supplied quantity, and each supplied
non-empty textual field (product name, category, serial number, barcode,
location) overwrites the stored one while an empty textual field leaves
it unchanged; however, because the numeric coercion runs before the
non-empty check, Unit Price and Low Stock Threshold are always
overwritten with the parsed supplied value (0 when left empty) and
Available is always overwritten (with "Yes" when left empty).  Rows other
than the matched one are untouched.  Consequently two successive adds of
the same identity starting from an empty store yield one row with
quantity q1+q2 whose non-empty textual fields from the later add win. -/
theorem c2_merge_add_amended
    (s : Store) (f f1 f2 : RawForm) (user now u1 n1 u2 n2 : String) (ix : Nat) :
    (findItemIndex s.inventory (coerceForm f).serialNumber (coerceForm f).barcode = some ix →
      (saveItem s f user now).1.inventory.length = s.inventory.length ∧
      (∀ j, j ≠ ix →
        getAt default (saveItem s f user now).1.inventory j = getAt default s.inventory j) ∧
      (getAt default (saveItem s f user now).1.inventory ix).quantity
        = (getAt default s.inventory ix).quantity + (coerceForm f).quantity ∧
      (getAt default (saveItem s f user now).1.inventory ix).productName
        = (if (coerceForm f).productName ≠ "" then (coerceForm f).productName
           else (getAt default s.inventory ix).productName) ∧
      (getAt default (saveItem s f user now).1.inventory ix).category
        = (if (coerceForm f).category ≠ "" then (coerceForm f).category
           else (getAt default s.inventory ix).category) ∧
      (getAt default (saveItem s f user now).1.inventory ix).serialNumber
        = (if (coerceForm f).serialNumber ≠ "" then (coerceForm f).serialNumber
           else (getAt default s.inventory ix).serialNumber) ∧
      (getAt default (saveItem s f user now).1.inventory ix).barcode
        = (if (coerceForm f).barcode ≠ "" then (coerceForm f).barcode
           else (getAt default s.inventory ix).barcode) ∧
      (getAt default (saveItem s f user now).1.inventory ix).location
        = (if (coerceForm f).location ≠ "" then (coerceForm f).location
           else (getAt default s.inventory ix).location) ∧
      (getAt default (saveItem s f user now).1.inventory ix).unitPrice
        = (coerceForm f).unitPrice ∧
      (getAt default (saveItem s f user now).1.inventory ix).lowStockThreshold
        = (coerceForm f).lowStockThreshold ∧
      (getAt default (saveItem s f user now).1.inventory ix).available
        = (coerceForm f).available) ∧
    (¬((coerceForm f1).serialNumber = "" ∧ (coerceForm f1).barcode = "") →
     findItemIndex (saveItem emptyStore f1 u1 n1).1.inventory
         (coerceForm f2).serialNumber (coerceForm f2).barcode = some 0 →
      (saveItem (saveItem emptyStore f1 u1 n1).1 f2 u2 n2).1.inventory.length = 1 ∧
      (getAt default (saveItem (saveItem emptyStore f1 u1 n1).1 f2 u2 n2).1.inventory 0).quantity
        = (coerceForm f1).quantity + (coerceForm f2).quantity ∧
      (getAt default (saveItem (saveItem emptyStore f1 u1 n1).1 f2 u2 n2).1.inventory
          0).productName
        = (if (coerceForm f2).productName ≠ "" then (coerceForm f2).productName
           else (coerceForm f1).productName) ∧
      (getAt default (saveItem (saveItem emptyStore f1 u1 n1).1 f2 u2 n2).1.inventory
          0).unitPrice = (coerceForm f2).unitPrice ∧
      (getAt default (saveItem (saveItem emptyStore f1 u1 n1).1 f2 u2 n2).1.inventory
          0).available = (coerceForm f2).available) := by
  constructor
  · intro hf
    have hlt : ix < s.inventory.length := findItemIndex_some_lt _ _ _ _ hf
    have hinv := saveItem_merge s f user now ix hf
    rw [hinv]
    refine ⟨length_setAt _ _ _, fun j hj => getAt_setAt_ne _ _ _ _ _ fun hh => hj hh.symm,
      ?_, ?_, ?_, ?_, ?_, ?_, ?_, ?_, ?_⟩ <;>
      rw [getAt_setAt_eq _ _ _ _ hlt]
    · rfl
    · rfl
    · rfl
    · rfl
    · rfl
    · rfl
    · rfl
    · rfl
    · exact if_pos (coerceForm_available_ne f)
  · intro hne1 hf2
    have hinv1 := saveItem_append emptyStore f1 u1 n1 hne1 (by
      show findItemIndex emptyStore.inventory _ _ = none
      exact findItemIndex_nil _ _)
    have hinv2 := saveItem_merge (saveItem emptyStore f1 u1 n1).1 f2 u2 n2 0 hf2
    have hold : getAt default (saveItem emptyStore f1 u1 n1).1.inventory 0
        = itemOfRow (coerceForm f1) := by
      rw [hinv1]
      rfl
    rw [hinv2, hold, hinv1]
    exact ⟨rfl, rfl, rfl, rfl, if_pos (coerceForm_available_ne f2)⟩

def c2wStore : Store := ⟨[⟨"Widget", "Tools", "SN1", "", "Yes", "Shelf", 5, 10, 2⟩], [], []⟩

def c2wForm : RawForm := ⟨"", "", "SN1", "", "", "", "3", "", ""⟩

def c2wForm1 : RawForm := ⟨"A", "", "SN2", "", "", "", "5", "", ""⟩

def c2wForm2 : RawForm := ⟨"B", "", "SN2", "", "", "", "3", "", ""⟩

theorem c2_merge_add_amended_witness :
    (getAt default (saveItem c2wStore c2wForm "u" "t").1.inventory 0).quantity
      = (getAt default c2wStore.inventory 0).quantity + (coerceForm c2wForm).quantity ∧
    (getAt default
        (saveItem (saveItem emptyStore c2wForm1 "u" "t1").1 c2wForm2 "u" "t2").1.inventory
        0).quantity
      = (coerceForm c2wForm1).quantity + (coerceForm c2wForm2).quantity :=
  ⟨((c2_merge_add_amended c2wStore c2wForm c2wForm1 c2wForm2 "u" "t" "u" "t1" "u" "t2" 0).1
      (by decide)).2.2.1,
   ((c2_merge_add_amended c2wStore c2wForm c2wForm1 c2wForm2 "u" "t" "u" "t1" "u" "t2" 0).2
      (by decide) (by decide)).2.1⟩

/-! ## C5: return resolves the issued record by linear scan -/

/-- C5: a return resolves the open issued record by a linear scan for the
first issued row whose serial number or barcode equals the scanned code,
failing with no state change when none matches; on success, when an
inventory row matches the record's identity its availability is set to
"Yes", and otherwise a new inventory row is appended carrying the
record's product name, category, serial and barcode with
Available="Yes", Quantity=1, Unit Price=0 and Low Stock Threshold=0; in
either case the issued record is removed. -/
theorem c5_return_behaviour (s : Store) (codeRaw user now : String) :
    (findIssuedIdx s.issued (pyStrip codeRaw) = none →
      (doReturn s codeRaw user now).1 = s ∧ (doReturn s codeRaw user now).2 ≠ none) ∧
    (∀ j, findIssuedIdx s.issued (pyStrip codeRaw) = some j →
      (doReturn s codeRaw user now).2 = none ∧
      (doReturn s codeRaw user now).1.issued = s.issued.eraseIdx j ∧
      ((∃ i, findItemIndex s.inventory (getAt default s.issued j).serialNumber
            (getAt default s.issued j).barcode = some i ∧
          (doReturn s codeRaw user now).1.inventory =
            setAt s.inventory i { getAt default s.inventory i with available := "Yes" }) ∨
       (findItemIndex s.inventory (getAt default s.issued j).serialNumber
            (getAt default s.issued j).barcode = none ∧
        (doReturn s codeRaw user now).1.inventory =
          s.inventory ++
            [⟨(getAt default s.issued j).productName, (getAt default s.issued j).category,
              (getAt default s.issued j).serialNumber, (getAt default s.issued j).barcode,
              "Yes", "", 1, 0, 0⟩]))) := by
  constructor
  · intro hf
    simp [doReturn, hf]
  · intro j hf
    simp only [doReturn, hf]
    refine ⟨by trivial, by simp [returnMut], ?_⟩
    cases hfi : findItemIndex s.inventory (getAt default s.issued j).serialNumber
        (getAt default s.issued j).barcode with
    | some i =>
      left
      exact ⟨i, rfl, by simp [returnMut, hfi]⟩
    | none =>
      right
      exact ⟨rfl, by simp [returnMut, hfi, fabricatedItem]⟩

def c5wStore : Store :=
  ⟨[⟨"P", "C", "S", "B", "No", "L", 4, 0, 0⟩],
   [⟨"P", "C", "S", "B", "alice", "d", "p", "t0"⟩], []⟩

theorem c5_return_behaviour_witness :
    (doReturn c5wStore "S" "u" "t1").2 = none ∧
    (doReturn c5wStore "S" "u" "t1").1.issued = c5wStore.issued.eraseIdx 0 :=
  let h := (c5_return_behaviour c5wStore "S" "u" "t1").2 0 (by decide)
  ⟨h.1, h.2.1⟩

/-! ## C8: the admin self-heal -/

/-- C8: `ensure_admin_user` matches the built-in account
case-insensitively: the first user row whose username lowercases to
"admin" is forced to Role="Admin" and Active=true, its password hash is
replaced by the hash of the fixed default exactly when the stored hash is
empty or whitespace, and other rows and the history are untouched; when
no such row exists, an "admin" row carrying the default hash is appended
and a SEED_ADMIN ledger entry is written. -/
theorem c8_ensure_admin (hashPw : String → String) (users : List UserRow)
    (hist : List HistEvent) (now : String) :
    (∀ i, findIdxOpt (fun r => pyLower r.username == "admin") users = some i →
      (ensureAdminUser hashPw users hist now).2 = hist ∧
      (ensureAdminUser hashPw users hist now).1.length = users.length ∧
      (∀ j, j ≠ i → getAt default (ensureAdminUser hashPw users hist now).1 j
          = getAt default users j) ∧
      (getAt default (ensureAdminUser hashPw users hist now).1 i).username
        = (getAt default users i).username ∧
      (getAt default (ensureAdminUser hashPw users hist now).1 i).role = "Admin" ∧
      (getAt default (ensureAdminUser hashPw users hist now).1 i).active = true ∧
      (getAt default (ensureAdminUser hashPw users hist now).1 i).passwordHash
        = (if pyStrip (getAt default users i).passwordHash = "" then hashPw "Admin@2028"
           else (getAt default users i).passwordHash)) ∧
    (findIdxOpt (fun r => pyLower r.username == "admin") users = none →
      (ensureAdminUser hashPw users hist now).1
        = users ++ [⟨"admin", hashPw "Admin@2028", "Admin", true⟩] ∧
      (ensureAdminUser hashPw users hist now).2
        = hist ++ [⟨now, "system", "SEED_ADMIN", "Built-in admin created"⟩]) := by
  constructor
  · intro i hf
    have hlt : i < users.length := findIdxOpt_some_lt _ _ _ hf
    simp only [ensureAdminUser, hf]
    refine ⟨by trivial, length_setAt _ _ _,
      fun j hj => getAt_setAt_ne _ _ _ _ _ fun hh => hj hh.symm, ?_, ?_, ?_, ?_⟩ <;>
      rw [getAt_setAt_eq _ _ _ _ hlt]
  · intro hf
    simp only [ensureAdminUser, hf]
    exact ⟨by trivial, by trivial⟩

def c8wUsers : List UserRow := [⟨"bob", "h", "Viewer", true⟩, ⟨"ADMIN", " ", "Viewer", false⟩]

theorem c8_ensure_admin_witness :
    (getAt default (ensureAdminUser (fun s => s) c8wUsers [] "t").1 1).role = "Admin" ∧
    (getAt default (ensureAdminUser (fun s => s) c8wUsers [] "t").1 1).active = true ∧
    (getAt default (ensureAdminUser (fun s => s) c8wUsers [] "t").1 1).passwordHash
      = (if pyStrip (getAt default c8wUsers 1).passwordHash = ""
         then (fun s : String => s) "Admin@2028"
         else (getAt default c8wUsers 1).passwordHash) :=
  let h := (c8_ensure_admin (fun s => s) c8wUsers [] "t").1 1 (by decide)
  ⟨h.2.2.2.2.1, h.2.2.2.2.2.1, h.2.2.2.2.2.2⟩

theorem findRow_some {α : Type} (p : α → Bool) (l : List α) (row : α)
    (h : findRow p l = some row) : p row = true ∧ row ∈ l := by
  induction l with
  | nil => simp [findRow] at h
  | cons a l ih =>
    by_cases hp : p a = true
    · simp [findRow, hp] at h
      subst h
      exact ⟨hp, List.mem_cons_self a l⟩
    · simp only [Bool.not_eq_true] at hp
      simp only [findRow, hp, Bool.false_eq_true, if_false] at h
      obtain ⟨h1, h2⟩ := ih h
      exact ⟨h1, List.mem_cons_of_mem a h2⟩

theorem findRow_none {α : Type} (p : α → Bool) (l : List α)
    (h : findRow p l = none) : ∀ x ∈ l, p x = false := by
  induction l with
  | nil => simp
  | cons a l ih =>
    by_cases hp : p a = true
    · simp [findRow, hp] at h
    · simp only [Bool.not_eq_true] at hp
      simp only [findRow, hp, Bool.false_eq_true, if_false] at h
      intro x hx
      rcases List.mem_cons.mp hx with hx | hx
      · exact hx ▸ hp
      · exact ih h x hx

theorem usernames_inj (users : List UserRow)
    (huniq : (users.map (fun r => r.username)).Nodup) :
    ∀ a ∈ users, ∀ b ∈ users, a.username = b.username → a = b := by
  intro a ha b hb hab
  exact List.inj_on_of_nodup_map huniq ha hb hab

/-! ## C7: credential check -/

/-- C7: with the usernames pairwise distinct (the data model declares
them unique), a login attempt is accepted iff the one-way hash of the
stripped supplied password equals the stored hash of a user row whose
username equals the stripped supplied username and whose Active flag is
true; every failure — unknown username, inactive account, or hash
mismatch — yields the single undifferentiated `invalid` outcome, so a
deactivated account is rejected even with the correct password. -/
theorem c7_login_credentials (hashPw : String → String) (users : List UserRow)
    (uRaw pRaw : String)
    (huniq : (users.map (fun r => r.username)).Nodup) :
    ((∃ r ∈ users, r.username = pyStrip uRaw ∧ r.active = true ∧
        hashPw (pyStrip pRaw) = r.passwordHash) ↔
      (∃ role, loginModel hashPw users uRaw pRaw = LoginResult.ok (pyStrip uRaw) role)) ∧
    ((¬∃ r ∈ users, r.username = pyStrip uRaw ∧ r.active = true ∧
        hashPw (pyStrip pRaw) = r.passwordHash) →
      loginModel hashPw users uRaw pRaw = LoginResult.invalid) := by
  simp only [loginModel]
  cases hfind : findRow (fun r => r.username == pyStrip uRaw && r.active) users with
  | none =>
    have hall := findRow_none _ _ hfind
    constructor
    · constructor
      · rintro ⟨r, hr, hu, ha, hh⟩
        have hfalse := hall r hr
        rw [hu, ha] at hfalse
        simp at hfalse
      · rintro ⟨role, hrole⟩
        simp at hrole
    · intro _
      rfl
  | some row =>
    obtain ⟨hp, hmem⟩ := findRow_some _ _ _ hfind
    rw [Bool.and_eq_true, beq_iff_eq] at hp
    by_cases hck : checkPw hashPw (pyStrip pRaw) row.passwordHash = true
    · have hckeq : hashPw (pyStrip pRaw) = row.passwordHash := by
        rw [checkPw, beq_iff_eq] at hck
        exact hck
      constructor
      · constructor
        · intro _
          exact ⟨roleOf row.role, by simp [hck]⟩
        · intro _
          exact ⟨row, hmem, hp.1, hp.2, hckeq⟩
      · intro hno
        exact absurd ⟨row, hmem, hp.1, hp.2, hckeq⟩ hno
    · have hnone : ¬∃ r ∈ users, r.username = pyStrip uRaw ∧ r.active = true ∧
          hashPw (pyStrip pRaw) = r.passwordHash := by
        rintro ⟨r, hr, hu, ha, hh⟩
        have : r = row := usernames_inj users huniq r hr row hmem (hu.trans hp.1.symm)
        subst this
        exact hck (by rw [checkPw, hh, beq_self_eq_true])
      simp only [Bool.not_eq_true] at hck
      constructor
      · constructor
        · intro hex
          exact absurd hex hnone
        · rintro ⟨role, hrole⟩
          simp [hck] at hrole
      · intro _
        simp [hck]

theorem c7_login_credentials_witness :
    loginModel (fun s => s) [⟨"bob", "H", "Clerk", false⟩, ⟨"amy", "H2", "Clerk", true⟩]
        "bob" "H" = LoginResult.invalid :=
  (c7_login_credentials (fun s => s)
      [⟨"bob", "H", "Clerk", false⟩, ⟨"amy", "H2", "Clerk", true⟩] "bob" "H"
      (by decide)).2 (by decide)

/-! ## C9: batch issue is duplicate-insensitive -/

/-- Removes every occurrence of a code that already appeared earlier in
the list (or in the accumulator of already-seen codes). -/
def dedupFirstAux (seen : List String) : List String → List String
  | [] => []
  | c :: cs => if c ∈ seen then dedupFirstAux seen cs else c :: dedupFirstAux (c :: seen) cs

def dedupFirst (l : List String) : List String := dedupFirstAux [] l

/-- A code is dead in an inventory when the batch-issue step skips it:
either it matches no row, or the matched row is not available. -/
def deadCode (inv : List Item) (code : String) : Prop :=
  ∀ ix, findItemIndex inv code code = some ix →
    pyLower (pyStrip (getAt default inv ix).available) ≠ "yes"

theorem setAt_ge {α : Type} (l : List α) (i : Nat) (v : α) (h : l.length ≤ i) :
    setAt l i v = l := by
  induction l generalizing i with
  | nil => rfl
  | cons a l ih =>
    cases i with
    | zero => simp at h
    | succ n =>
      simp only [setAt]
      rw [ih n (Nat.le_of_succ_le_succ h)]

theorem findItemIndex_setAt_avail (inv : List Item) (ix : Nat) (av : String) (a b : String) :
    findItemIndex (setAt inv ix { getAt default inv ix with available := av }) a b
      = findItemIndex inv a b := by
  have h1 : findIdxOpt (fun it => it.serialNumber == a)
      (setAt inv ix { getAt default inv ix with available := av })
      = findIdxOpt (fun it => it.serialNumber == a) inv :=
    findIdxOpt_setAt default _ inv ix _ rfl
  have h2 : findIdxOpt (fun it => it.barcode == b)
      (setAt inv ix { getAt default inv ix with available := av })
      = findIdxOpt (fun it => it.barcode == b) inv :=
    findIdxOpt_setAt default _ inv ix _ rfl
  simp only [findItemIndex, h1, h2]

theorem getAt_setAvail_serial (inv : List Item) (ix i : Nat) (av : String) :
    (getAt default (setAt inv ix { getAt default inv ix with available := av }) i).serialNumber
      = (getAt default inv i).serialNumber := by
  by_cases hii : ix = i
  · subst hii
    by_cases hlt : ix < inv.length
    · rw [getAt_setAt_eq _ _ _ _ hlt]
    · rw [setAt_ge _ _ _ (Nat.le_of_not_lt hlt)]
  · rw [getAt_setAt_ne _ _ _ _ _ hii]

theorem getAt_setAvail_barcode (inv : List Item) (ix i : Nat) (av : String) :
    (getAt default (setAt inv ix { getAt default inv ix with available := av }) i).barcode
      = (getAt default inv i).barcode := by
  by_cases hii : ix = i
  · subst hii
    by_cases hlt : ix < inv.length
    · rw [getAt_setAt_eq _ _ _ _ hlt]
    · rw [setAt_ge _ _ _ (Nat.le_of_not_lt hlt)]
  · rw [getAt_setAt_ne _ _ _ _ _ hii]

theorem batchStep_dead_self (st dp ps nw : String) (acc : Store × Nat) (c : String) :
    deadCode (batchIssueStep st dp ps nw acc c).1.inventory c := by
  cases hf : findItemIndex acc.1.inventory c c with
  | none =>
    simp only [batchIssueStep, hf]
    intro ix' h'
    rw [hf] at h'
    cases h'
  | some ix =>
    by_cases hskip : pyLower (pyStrip (getAt default acc.1.inventory ix).available) ≠ "yes"
    · simp only [batchIssueStep, hf, if_pos hskip]
      intro ix' h'
      rw [hf] at h'
      cases h'
      exact hskip
    · simp only [batchIssueStep, hf, if_neg hskip, issueMut]
      intro ix' h'
      rw [findItemIndex_setAt_avail, hf] at h'
      cases h'
      have hlt : ix < acc.1.inventory.length := findItemIndex_some_lt _ _ _ _ hf
      rw [getAt_setAt_eq _ _ _ _ hlt]
      show pyLower (pyStrip "No") ≠ "yes"
      decide

theorem batchStep_dead_mono (st dp ps nw : String) (acc : Store × Nat) (c e : String)
    (hd : deadCode acc.1.inventory c) :
    deadCode (batchIssueStep st dp ps nw acc e).1.inventory c := by
  cases hf : findItemIndex acc.1.inventory e e with
  | none =>
    simp only [batchIssueStep, hf]
    exact hd
  | some ixe =>
    by_cases hskip : pyLower (pyStrip (getAt default acc.1.inventory ixe).available) ≠ "yes"
    · simp only [batchIssueStep, hf, if_pos hskip]
      exact hd
    · simp only [batchIssueStep, hf, if_neg hskip, issueMut]
      intro ix' h'
      rw [findItemIndex_setAt_avail] at h'
      have hdead := hd ix' h'
      by_cases hii : ixe = ix'
      · subst hii
        have hlt : ixe < acc.1.inventory.length := findItemIndex_some_lt _ _ _ _ hf
        rw [getAt_setAt_eq _ _ _ _ hlt]
        show pyLower (pyStrip "No") ≠ "yes"
        decide
      · rw [getAt_setAt_ne _ _ _ _ _ hii]
        exact hdead

theorem batchStep_dead_noop (st dp ps nw : String) (acc : Store × Nat) (c : String)
    (hd : deadCode acc.1.inventory c) :
    batchIssueStep st dp ps nw acc c = acc := by
  cases hf : findItemIndex acc.1.inventory c c with
  | none => simp only [batchIssueStep, hf]
  | some ix => simp only [batchIssueStep, hf, if_pos (hd ix hf)]

theorem batchFold_dedup_aux (st dp ps nw : String) (lines : List String)
    (seen : List String) (acc : Store × Nat)
    (hseen : ∀ c ∈ seen, pyStrip c ≠ "" → deadCode acc.1.inventory (pyStrip c)) :
    (((dedupFirstAux seen lines).map pyStrip).filter (fun c => c ≠ "")).foldl
        (batchIssueStep st dp ps nw) acc
      = ((lines.map pyStrip).filter (fun c => c ≠ "")).foldl
          (batchIssueStep st dp ps nw) acc := by
  induction lines generalizing seen acc with
  | nil => rfl
  | cons c cs ih =>
    by_cases hc : c ∈ seen
    · simp only [dedupFirstAux, if_pos hc]
      by_cases hcs : pyStrip c = ""
      · simp only [List.map_cons, List.filter_cons,
          if_neg (show ¬decide (pyStrip c ≠ "") = true by simp [hcs])]
        exact ih seen acc hseen
      · have hstep : batchIssueStep st dp ps nw acc (pyStrip c) = acc :=
          batchStep_dead_noop _ _ _ _ _ _ (hseen c hc hcs)
        simp only [List.map_cons, List.filter_cons,
          if_pos (show decide (pyStrip c ≠ "") = true by simp [hcs]),
          List.foldl_cons, hstep]
        exact ih seen acc hseen
    · simp only [dedupFirstAux, if_neg hc]
      by_cases hcs : pyStrip c = ""
      · simp only [List.map_cons, List.filter_cons,
          if_neg (show ¬decide (pyStrip c ≠ "") = true by simp [hcs])]
        refine ih (c :: seen) acc ?_
        intro e he hne
        rcases List.mem_cons.mp he with he | he
        · subst he
          exact absurd hcs hne
        · exact hseen e he hne
      · simp only [List.map_cons, List.filter_cons,
          if_pos (show decide (pyStrip c ≠ "") = true by simp [hcs]),
          List.foldl_cons]
        refine ih (c :: seen) (batchIssueStep st dp ps nw acc (pyStrip c)) ?_
        intro e he hne
        rcases List.mem_cons.mp he with he | he
        · subst he
          exact batchStep_dead_self st dp ps nw acc (pyStrip e)
        · exact batchStep_dead_mono st dp ps nw acc (pyStrip e) (pyStrip c)
            (hseen e he hne)

/-- C9: batch issue is duplicate-insensitive within one batch: running it
on a code list is the same — same final store, same reported count, and
hence the same single ISSUE_BATCH ledger entry — as running it on the
list with every later duplicate occurrence removed; a repeated code is
silently skipped after its first occurrence and counted once. -/
theorem c9_batch_issue_dedup (s : Store) (staffRaw dept pos now user : String)
    (codes : List String) :
    batchIssue s staffRaw dept pos now user (dedupFirst codes)
      = batchIssue s staffRaw dept pos now user codes := by
  simp only [batchIssue]
  by_cases hst : pyStrip staffRaw = ""
  · simp [hst]
  · simp only [hst, if_neg, ite_false]
    rw [dedupFirst,
      batchFold_dedup_aux staffRaw dept pos now codes [] (s, 0) (by intro c hc; simp at hc)]

/-! ## C1: the availability/issued-record invariant

Auxiliary strengthened invariant for the restricted reachable states. -/

def availOk (s : Store) : Prop :=
  ∀ i, i < s.inventory.length →
    (getAt default s.inventory i).available = "Yes" ∨
    (getAt default s.inventory i).available = "No"

def identOk (s : Store) : Prop :=
  ∀ i, i < s.inventory.length →
    (getAt default s.inventory i).serialNumber ≠ "" ∨
    (getAt default s.inventory i).barcode ≠ ""

def serialUniq (s : Store) : Prop :=
  ∀ i j, i < s.inventory.length → j < s.inventory.length → i ≠ j →
    (getAt default s.inventory i).serialNumber ≠ "" →
    (getAt default s.inventory i).serialNumber ≠ (getAt default s.inventory j).serialNumber

def barcodeUniq (s : Store) : Prop :=
  ∀ i j, i < s.inventory.length → j < s.inventory.length → i ≠ j →
    (getAt default s.inventory i).barcode ≠ "" →
    (getAt default s.inventory i).barcode ≠ (getAt default s.inventory j).barcode

def countsOk (s : Store) : Prop :=
  ∀ i, i < s.inventory.length →
    cntP (matchRec (getAt default s.inventory i)) s.issued
      = if (getAt default s.inventory i).available = "No" then 1 else 0

def recBacked (s : Store) : Prop :=
  ∀ j, j < s.issued.length → ∃ i, i < s.inventory.length ∧
    (getAt default s.inventory i).serialNumber = (getAt default s.issued j).serialNumber ∧
    (getAt default s.inventory i).barcode = (getAt default s.issued j).barcode

def StoreInv (s : Store) : Prop :=
  availOk s ∧ identOk s ∧ serialUniq s ∧ barcodeUniq s ∧ countsOk s ∧ recBacked s

theorem StoreInv_empty : StoreInv emptyStore := by
  refine ⟨?_, ?_, ?_, ?_, ?_, ?_⟩
  · intro i hi; simp [emptyStore] at hi
  · intro i hi; simp [emptyStore] at hi
  · intro i j hi; simp [emptyStore] at hi
  · intro i j hi; simp [emptyStore] at hi
  · intro i hi; simp [emptyStore] at hi
  · intro j hj; simp [emptyStore] at hj

theorem StoreInv_of_parts (s' : Store) (inv : List Item) (iss : List IssuedRec)
    (hinv : s'.inventory = inv) (hiss : s'.issued = iss)
    (h : StoreInv ⟨inv, iss, []⟩) : StoreInv s' := by
  cases s' with
  | mk a b c =>
    dsimp at hinv hiss
    subst hinv
    subst hiss
    exact h

theorem cntP_singleton {α : Type} (p : α → Bool) (x : α) :
    cntP p [x] = if p x then 1 else 0 := by
  simp [cntP]

theorem length_eraseIdx' {α : Type} (l : List α) (j : Nat) (h : j < l.length) :
    (l.eraseIdx j).length = l.length - 1 := by
  induction l generalizing j with
  | nil => simp at h
  | cons a l ih =>
    cases j with
    | zero => simp [List.eraseIdx]
    | succ n =>
      simp only [List.eraseIdx, List.length_cons]
      rw [ih n (Nat.lt_of_succ_lt_succ h)]
      have : 0 < l.length := Nat.lt_of_le_of_lt (Nat.zero_le n) (Nat.lt_of_succ_lt_succ h)
      omega

theorem getAt_eraseIdx {α : Type} (d : α) (l : List α) (j j' : Nat) :
    getAt d (l.eraseIdx j) j' = if j' < j then getAt d l j' else getAt d l (j' + 1) := by
  induction l generalizing j j' with
  | nil => cases j' <;> simp [List.eraseIdx, getAt]
  | cons a l ih =>
    cases j with
    | zero => simp [List.eraseIdx, getAt]
    | succ n =>
      cases j' with
      | zero => simp [List.eraseIdx, getAt]
      | succ m =>
        simp only [List.eraseIdx, getAt]
        rw [ih n m]
        by_cases hm : m < n
        · rw [if_pos hm, if_pos (Nat.succ_lt_succ hm)]
        · rw [if_neg hm, if_neg fun hc => hm (Nat.lt_of_succ_lt_succ hc)]

theorem matchRec_self (it : Item) (r : IssuedRec)
    (hid : it.serialNumber ≠ "" ∨ it.barcode ≠ "")
    (hrs : r.serialNumber = it.serialNumber) (hrb : r.barcode = it.barcode) :
    matchRec it r = true := by
  unfold matchRec
  by_cases h1 : it.serialNumber ≠ ""
  · rw [if_pos h1, hrs]
    exact beq_self_eq_true _
  · have h2 : it.barcode ≠ "" := hid.resolve_left h1
    rw [if_neg h1, if_pos h2, hrb]
    exact beq_self_eq_true _

theorem matchRec_false_of_other (s : Store) (hS : serialUniq s) (hB : barcodeUniq s)
    (i k : Nat) (hi : i < s.inventory.length) (hk : k < s.inventory.length) (hik : i ≠ k)
    (r : IssuedRec)
    (hrs : r.serialNumber = (getAt default s.inventory k).serialNumber)
    (hrb : r.barcode = (getAt default s.inventory k).barcode) :
    matchRec (getAt default s.inventory i) r = false := by
  unfold matchRec
  by_cases h1 : (getAt default s.inventory i).serialNumber ≠ ""
  · rw [if_pos h1, hrs, beq_eq_false_iff_ne]
    intro heq
    exact hS i k hi hk hik h1 heq.symm
  · rw [if_neg h1]
    by_cases h2 : (getAt default s.inventory i).barcode ≠ ""
    · rw [if_pos h2, hrb, beq_eq_false_iff_ne]
      intro heq
      exact hB i k hi hk hik h2 heq.symm
    · rw [if_neg h2]

theorem matchRec_setAvail_fun (it : Item) (av : String) :
    matchRec { it with available := av } = matchRec it := rfl

theorem StoreInv_issueMut (s : Store) (ix : Nat) (st dp ps nw : String)
    (h : StoreInv s) (hix : ix < s.inventory.length)
    (hyes : (getAt default s.inventory ix).available = "Yes") :
    StoreInv (issueMut s ix st dp ps nw) := by
  obtain ⟨hA, hI, hS, hB, hC, hR⟩ := h
  refine ⟨?_, ?_, ?_, ?_, ?_, ?_⟩ <;> dsimp only [issueMut]
  · intro i hi
    rw [length_setAt] at hi
    by_cases hii : ix = i
    · subst hii
      rw [getAt_setAt_eq _ _ _ _ hix]
      exact Or.inr rfl
    · rw [getAt_setAt_ne _ _ _ _ _ hii]
      exact hA i hi
  · intro i hi
    rw [length_setAt] at hi
    rw [getAt_setAvail_serial, getAt_setAvail_barcode]
    exact hI i hi
  · intro i j hi hj hij hne
    rw [length_setAt] at hi hj
    simp only [getAt_setAvail_serial] at hne ⊢
    exact hS i j hi hj hij hne
  · intro i j hi hj hij hne
    rw [length_setAt] at hi hj
    simp only [getAt_setAvail_barcode] at hne ⊢
    exact hB i j hi hj hij hne
  · intro i hi
    rw [length_setAt] at hi
    by_cases hii : ix = i
    · subst hii
      rw [getAt_setAt_eq _ _ _ _ hix]
      rw [matchRec_setAvail_fun, cntP_append, cntP_singleton]
      have h0 : cntP (matchRec (getAt default s.inventory ix)) s.issued = 0 := by
        rw [hC ix hix, hyes]
        rw [if_neg (by decide : ¬("Yes" : String) = "No")]
      have hm : matchRec (getAt default s.inventory ix)
          ⟨(getAt default s.inventory ix).productName,
           (getAt default s.inventory ix).category,
           (getAt default s.inventory ix).serialNumber,
           (getAt default s.inventory ix).barcode, st, dp, ps, nw⟩ = true :=
        matchRec_self _ _ (hI ix hix) rfl rfl
      rw [h0, hm]
      simp
    · rw [getAt_setAt_ne _ _ _ _ _ hii]
      rw [cntP_append, cntP_singleton]
      have hm : matchRec (getAt default s.inventory i)
          ⟨(getAt default s.inventory ix).productName,
           (getAt default s.inventory ix).category,
           (getAt default s.inventory ix).serialNumber,
           (getAt default s.inventory ix).barcode, st, dp, ps, nw⟩ = false :=
        matchRec_false_of_other s hS hB i ix hi hix (fun hc => hii hc.symm) _ rfl rfl
      rw [hm]
      simp only [Bool.false_eq_true, if_false, Nat.add_zero]
      exact hC i hi
  · intro j hj
    simp only [List.length_append, List.length_cons, List.length_nil] at hj
    by_cases hjl : j < s.issued.length
    · obtain ⟨i0, hi0, hs0, hb0⟩ := hR j hjl
      refine ⟨i0, ?_, ?_, ?_⟩
      · rw [length_setAt]
        exact hi0
      · rw [getAt_setAvail_serial, getAt_append_left _ _ _ _ hjl]
        exact hs0
      · rw [getAt_setAvail_barcode, getAt_append_left _ _ _ _ hjl]
        exact hb0
    · have hjeq : j = s.issued.length := by omega
      subst hjeq
      refine ⟨ix, ?_, ?_, ?_⟩
      · rw [length_setAt]
        exact hix
      · rw [getAt_setAvail_serial, getAt_append_last]
      · rw [getAt_setAvail_barcode, getAt_append_last]

theorem findItemIndex_exact (s : Store) (hS : serialUniq s) (hB : barcodeUniq s)
    (hI : identOk s) (sn bc : String) (i0 : Nat) (hi0 : i0 < s.inventory.length)
    (hs0 : (getAt default s.inventory i0).serialNumber = sn)
    (hb0 : (getAt default s.inventory i0).barcode = bc) :
    ∃ k, findItemIndex s.inventory sn bc = some k ∧ k < s.inventory.length ∧
      (getAt default s.inventory k).serialNumber = sn ∧
      (getAt default s.inventory k).barcode = bc := by
  by_cases hsn : sn = ""
  · have hbc : bc ≠ "" := by
      rcases hI i0 hi0 with h | h
      · rw [hs0, hsn] at h
        exact absurd rfl h
      · rw [hb0] at h
        exact h
    obtain ⟨k, hk⟩ := findIdxOpt_isSome_of default (fun it => it.barcode == bc)
      s.inventory i0 hi0 (by
        show ((getAt default s.inventory i0).barcode == bc) = true
        rw [hb0]
        exact beq_self_eq_true _)
    have hkb : (getAt default s.inventory k).barcode = bc :=
      beq_iff_eq.mp (findIdxOpt_some_p default _ _ _ hk)
    have hklt : k < s.inventory.length := findIdxOpt_some_lt _ _ _ hk
    have hki : k = i0 := by
      by_contra hne
      exact (hB k i0 hklt hi0 hne (by rw [hkb]; exact hbc)) (by rw [hkb, hb0])
    refine ⟨k, ?_, hklt, by rw [hki, hs0], hkb⟩
    subst hsn
    simp [findItemIndex, hbc, hk]
  · obtain ⟨k, hk⟩ := findIdxOpt_isSome_of default (fun it => it.serialNumber == sn)
      s.inventory i0 hi0 (by
        show ((getAt default s.inventory i0).serialNumber == sn) = true
        rw [hs0]
        exact beq_self_eq_true _)
    have hks : (getAt default s.inventory k).serialNumber = sn :=
      beq_iff_eq.mp (findIdxOpt_some_p default _ _ _ hk)
    have hklt : k < s.inventory.length := findIdxOpt_some_lt _ _ _ hk
    have hki : k = i0 := by
      by_contra hne
      exact (hS k i0 hklt hi0 hne (by rw [hks]; exact hsn)) (by rw [hks, hs0])
    refine ⟨k, ?_, hklt, hks, by rw [hki, hb0]⟩
    simp [findItemIndex, hsn, hk]

theorem StoreInv_returnMut (s : Store) (j : Nat)
    (h : StoreInv s) (hj : j < s.issued.length) :
    StoreInv (returnMut s j) := by
  obtain ⟨hA, hI, hS, hB, hC, hR⟩ := h
  obtain ⟨i0, hi0, hs0, hb0⟩ := hR j hj
  obtain ⟨k, hfk, hklt, hks, hkb⟩ :=
    findItemIndex_exact s hS hB hI (getAt default s.issued j).serialNumber
      (getAt default s.issued j).barcode i0 hi0 hs0 hb0
  have hmk : matchRec (getAt default s.inventory k) (getAt default s.issued j) = true :=
    matchRec_self _ _ (hI k hklt) hks.symm hkb.symm
  have herase := cntP_eraseIdx default (matchRec (getAt default s.inventory k)) s.issued j hj
  rw [hmk, if_pos rfl] at herase
  have hcnt := hC k hklt
  have hno : (getAt default s.inventory k).available = "No" := by
    rcases hA k hklt with hv | hv
    · exfalso
      rw [hcnt, hv, if_neg (by decide : ¬("Yes" : String) = "No")] at herase
      omega
    · exact hv
  have hcnt1 : cntP (matchRec (getAt default s.inventory k)) s.issued = 1 := by
    rw [hcnt, hno, if_pos rfl]
  have hcnt0 : cntP (matchRec (getAt default s.inventory k)) (s.issued.eraseIdx j) = 0 := by
    omega
  have hres : returnMut s j
      = { inventory := setAt s.inventory k
            { getAt default s.inventory k with available := "Yes" },
          issued := s.issued.eraseIdx j, history := s.history } := by
    simp only [returnMut, hfk]
  rw [hres]
  refine ⟨?_, ?_, ?_, ?_, ?_, ?_⟩ <;> dsimp only
  · intro i hi
    rw [length_setAt] at hi
    by_cases hii : k = i
    · subst hii
      rw [getAt_setAt_eq _ _ _ _ hklt]
      exact Or.inl rfl
    · rw [getAt_setAt_ne _ _ _ _ _ hii]
      exact hA i hi
  · intro i hi
    rw [length_setAt] at hi
    rw [getAt_setAvail_serial, getAt_setAvail_barcode]
    exact hI i hi
  · intro i j' hi hj' hij hne
    rw [length_setAt] at hi hj'
    simp only [getAt_setAvail_serial] at hne ⊢
    exact hS i j' hi hj' hij hne
  · intro i j' hi hj' hij hne
    rw [length_setAt] at hi hj'
    simp only [getAt_setAvail_barcode] at hne ⊢
    exact hB i j' hi hj' hij hne
  · intro i hi
    rw [length_setAt] at hi
    by_cases hii : k = i
    · subst hii
      rw [getAt_setAt_eq _ _ _ _ hklt]
      rw [matchRec_setAvail_fun]
      rw [hcnt0]
      rw [if_neg (by decide : ¬("Yes" : String) = "No")]
    · rw [getAt_setAt_ne _ _ _ _ _ hii]
      have hm : matchRec (getAt default s.inventory i) (getAt default s.issued j) = false :=
        matchRec_false_of_other s hS hB i k hi hklt (fun hc => hii hc.symm) _
          hks.symm hkb.symm
      have heq := cntP_eraseIdx default (matchRec (getAt default s.inventory i)) s.issued j hj
      rw [hm] at heq
      simp only [Bool.false_eq_true, if_false, Nat.add_zero] at heq
      rw [heq]
      exact hC i hi
  · intro j' hj'
    rw [length_eraseIdx' _ _ hj] at hj'
    rw [getAt_eraseIdx]
    by_cases hlt : j' < j
    · rw [if_pos hlt]
      obtain ⟨i1, hi1, hsi, hbi⟩ := hR j' (by omega)
      refine ⟨i1, ?_, ?_, ?_⟩
      · rw [length_setAt]
        exact hi1
      · rw [getAt_setAvail_serial]
        exact hsi
      · rw [getAt_setAvail_barcode]
        exact hbi
    · rw [if_neg hlt]
      obtain ⟨i1, hi1, hsi, hbi⟩ := hR (j' + 1) (by omega)
      refine ⟨i1, ?_, ?_, ?_⟩
      · rw [length_setAt]
        exact hi1
      · rw [getAt_setAvail_serial]
        exact hsi
      · rw [getAt_setAvail_barcode]
        exact hbi

theorem saveItem_issued (s : Store) (f : RawForm) (u n : String) :
    (saveItem s f u n).1.issued = s.issued := by
  simp only [saveItem]
  by_cases hg : ((coerceForm f).serialNumber = "" && (coerceForm f).barcode = "") = true
  · rw [if_pos hg]
  · rw [if_neg hg]
    cases hfind : findItemIndex s.inventory (coerceForm f).serialNumber
        (coerceForm f).barcode <;> rfl

theorem StoreInv_saveItem_fresh (s : Store) (f : RawForm) (u n : String)
    (h : StoreInv s) (hf : freshAdd s f = true) : StoreInv (saveItem s f u n).1 := by
  obtain ⟨hA, hI, hS, hB, hC, hR⟩ := h
  simp only [freshAdd, Bool.and_eq_true] at hf
  obtain ⟨⟨hav, hsf⟩, hbf⟩ := hf
  have hav' : pyStrip f.available = "" := beq_iff_eq.mp hav
  have hYes : (coerceForm f).available = "Yes" := by
    simp [coerceForm, hav']
  have hsf' : (coerceForm f).serialNumber ≠ "" →
      ∀ i, i < s.inventory.length →
        (getAt default s.inventory i).serialNumber ≠ (coerceForm f).serialNumber := by
    intro hne i hi
    cases (Bool.or_eq_true _ _).mp hsf with
    | inl hl => exact absurd (beq_iff_eq.mp hl) hne
    | inr hr =>
      have hall := List.all_eq_true.mp hr (getAt default s.inventory i)
        (getAt_mem default _ i hi)
      simp at hall
      exact hall
  have hbf' : (coerceForm f).barcode ≠ "" →
      ∀ i, i < s.inventory.length →
        (getAt default s.inventory i).barcode ≠ (coerceForm f).barcode := by
    intro hne i hi
    cases (Bool.or_eq_true _ _).mp hbf with
    | inl hl => exact absurd (beq_iff_eq.mp hl) hne
    | inr hr =>
      have hall := List.all_eq_true.mp hr (getAt default s.inventory i)
        (getAt_mem default _ i hi)
      simp at hall
      exact hall
  by_cases hg : (coerceForm f).serialNumber = "" ∧ (coerceForm f).barcode = ""
  · have hres : (saveItem s f u n).1 = s := by
      simp [saveItem, hg.1, hg.2]
    rw [hres]
    exact ⟨hA, hI, hS, hB, hC, hR⟩
  · have hfindS : (coerceForm f).serialNumber ≠ "" →
        findIdxOpt (fun it => it.serialNumber == (coerceForm f).serialNumber)
          s.inventory = none := by
      intro hne
      rw [findIdxOpt_eq_none]
      intro x hx
      obtain ⟨i, hi, hxe⟩ := mem_getAt default s.inventory x hx
      subst hxe
      show ((getAt default s.inventory i).serialNumber == (coerceForm f).serialNumber) = false
      rw [beq_eq_false_iff_ne]
      exact hsf' hne i hi
    have hfindB : (coerceForm f).barcode ≠ "" →
        findIdxOpt (fun it => it.barcode == (coerceForm f).barcode)
          s.inventory = none := by
      intro hne
      rw [findIdxOpt_eq_none]
      intro x hx
      obtain ⟨i, hi, hxe⟩ := mem_getAt default s.inventory x hx
      subst hxe
      show ((getAt default s.inventory i).barcode == (coerceForm f).barcode) = false
      rw [beq_eq_false_iff_ne]
      exact hbf' hne i hi
    have e1 : (if (coerceForm f).serialNumber ≠ "" then
        findIdxOpt (fun it => it.serialNumber == (coerceForm f).serialNumber) s.inventory
        else none) = none := by
      by_cases h1 : (coerceForm f).serialNumber = ""
      · rw [if_neg (fun hh => hh h1)]
      · rw [if_pos h1]
        exact hfindS h1
    have e2 : (if (coerceForm f).barcode ≠ "" then
        findIdxOpt (fun it => it.barcode == (coerceForm f).barcode) s.inventory
        else none) = none := by
      by_cases h2 : (coerceForm f).barcode = ""
      · rw [if_neg (fun hh => hh h2)]
      · rw [if_pos h2]
        exact hfindB h2
    have hfind : findItemIndex s.inventory (coerceForm f).serialNumber
        (coerceForm f).barcode = none := by
      simp only [findItemIndex, e1, e2]
    have hres := saveItem_append s f u n hg hfind
    apply StoreInv_of_parts _ _ _ hres (saveItem_issued s f u n)
    have hid : (coerceForm f).serialNumber ≠ "" ∨ (coerceForm f).barcode ≠ "" := by
      by_cases h1 : (coerceForm f).serialNumber = ""
      · exact Or.inr fun h2 => hg ⟨h1, h2⟩
      · exact Or.inl h1
    refine ⟨?_, ?_, ?_, ?_, ?_, ?_⟩ <;> dsimp only
    · intro i hi
      simp only [List.length_append, List.length_cons, List.length_nil] at hi
      by_cases hil : i < s.inventory.length
      · rw [getAt_append_left _ _ _ _ hil]
        exact hA i hil
      · have hieq : i = s.inventory.length := by omega
        subst hieq
        rw [getAt_append_last]
        exact Or.inl hYes
    · intro i hi
      simp only [List.length_append, List.length_cons, List.length_nil] at hi
      by_cases hil : i < s.inventory.length
      · rw [getAt_append_left _ _ _ _ hil]
        exact hI i hil
      · have hieq : i = s.inventory.length := by omega
        subst hieq
        rw [getAt_append_last]
        exact hid
    · intro i j hi hj hij hne
      simp only [List.length_append, List.length_cons, List.length_nil] at hi hj
      by_cases hil : i < s.inventory.length
      · rw [getAt_append_left _ _ _ _ hil] at hne ⊢
        by_cases hjl : j < s.inventory.length
        · rw [getAt_append_left _ _ _ _ hjl]
          exact hS i j hil hjl hij hne
        · have hjeq : j = s.inventory.length := by omega
          subst hjeq
          rw [getAt_append_last]
          intro hc
          have hns : (coerceForm f).serialNumber ≠ "" := by
            intro h0
            apply hne
            rw [hc]
            exact h0
          exact hsf' hns i hil hc
      · have hieq : i = s.inventory.length := by omega
        subst hieq
        rw [getAt_append_last] at hne ⊢
        have hjl : j < s.inventory.length := by omega
        rw [getAt_append_left _ _ _ _ hjl]
        intro hc
        exact hsf' hne j hjl hc.symm
    · intro i j hi hj hij hne
      simp only [List.length_append, List.length_cons, List.length_nil] at hi hj
      by_cases hil : i < s.inventory.length
      · rw [getAt_append_left _ _ _ _ hil] at hne ⊢
        by_cases hjl : j < s.inventory.length
        · rw [getAt_append_left _ _ _ _ hjl]
          exact hB i j hil hjl hij hne
        · have hjeq : j = s.inventory.length := by omega
          subst hjeq
          rw [getAt_append_last]
          intro hc
          have hns : (coerceForm f).barcode ≠ "" := by
            intro h0
            apply hne
            rw [hc]
            exact h0
          exact hbf' hns i hil hc
      · have hieq : i = s.inventory.length := by omega
        subst hieq
        rw [getAt_append_last] at hne ⊢
        have hjl : j < s.inventory.length := by omega
        rw [getAt_append_left _ _ _ _ hjl]
        intro hc
        exact hbf' hne j hjl hc.symm
    · intro i hi
      simp only [List.length_append, List.length_cons, List.length_nil] at hi
      by_cases hil : i < s.inventory.length
      · rw [getAt_append_left _ _ _ _ hil]
        exact hC i hil
      · have hieq : i = s.inventory.length := by omega
        subst hieq
        rw [getAt_append_last]
        show cntP (matchRec (itemOfRow (coerceForm f))) s.issued
          = if (coerceForm f).available = "No" then 1 else 0
        rw [hYes, if_neg (by decide : ¬("Yes" : String) = "No")]
        rw [cntP_eq_zero]
        intro rec hrec
        obtain ⟨j', hj', hje⟩ := mem_getAt default s.issued rec hrec
        obtain ⟨i1, hi1, hsi, hbi⟩ := hR j' hj'
        rw [hje] at hsi hbi
        unfold matchRec
        by_cases h1 : (itemOfRow (coerceForm f)).serialNumber ≠ ""
        · rw [if_pos h1, beq_eq_false_iff_ne]
          intro hc
          exact hsf' h1 i1 hi1 (hsi.trans hc)
        · rw [if_neg h1]
          by_cases h2 : (itemOfRow (coerceForm f)).barcode ≠ ""
          · rw [if_pos h2, beq_eq_false_iff_ne]
            intro hc
            exact hbf' h2 i1 hi1 (hbi.trans hc)
          · rw [if_neg h2]
    · intro j' hj'
      obtain ⟨i1, hi1, hsi, hbi⟩ := hR j' hj'
      refine ⟨i1, ?_, ?_, ?_⟩
      · simp only [List.length_append, List.length_cons, List.length_nil]
        omega
      · rw [getAt_append_left _ _ _ _ hi1]
        exact hsi
      · rw [getAt_append_left _ _ _ _ hi1]
        exact hbi

theorem StoreInv_doIssue (s : Store) (c : Bool) (code st d p n u : String)
    (h : StoreInv s) : StoreInv (doIssue s c code st d p n u).1 := by
  cases hf : findItemIndex s.inventory (pyStrip code) (pyStrip code) with
  | none =>
    simp only [doIssue, hf]
    exact h
  | some ix =>
    cases c with
    | false =>
      simp [doIssue, hf]
      exact h
    | true =>
      by_cases htr : isTruthyToken (getAt default s.inventory ix).available = true
      · by_cases hst : pyStrip st = ""
        · simp [doIssue, hf, htr, hst]
          exact h
        · simp [doIssue, hf, htr, hst]
          have hix : ix < s.inventory.length := findItemIndex_some_lt _ _ _ _ hf
          have hyes : (getAt default s.inventory ix).available = "Yes" := by
            rcases h.1 ix hix with hv | hv
            · exact hv
            · exfalso
              rw [hv] at htr
              exact absurd htr (by decide)
          exact StoreInv_issueMut s ix (pyStrip st) d p n h hix hyes
      · simp only [Bool.not_eq_true] at htr
        simp [doIssue, hf, htr]
        exact h

theorem StoreInv_doReturn (s : Store) (code u n : String) (h : StoreInv s) :
    StoreInv (doReturn s code u n).1 := by
  cases hf : findIssuedIdx s.issued (pyStrip code) with
  | none =>
    simp only [doReturn, hf]
    exact h
  | some j =>
    simp only [doReturn, hf]
    exact StoreInv_returnMut s j h (findIdxOpt_some_lt _ _ _ hf)

theorem StoreInv_batchIssueStep (st dp ps nw : String) (acc : Store × Nat) (c : String)
    (h : StoreInv acc.1) : StoreInv (batchIssueStep st dp ps nw acc c).1 := by
  cases hf : findItemIndex acc.1.inventory c c with
  | none =>
    simp only [batchIssueStep, hf]
    exact h
  | some ix =>
    by_cases hskip : pyLower (pyStrip (getAt default acc.1.inventory ix).available) ≠ "yes"
    · simp only [batchIssueStep, hf, if_pos hskip]
      exact h
    · simp only [batchIssueStep, hf, if_neg hskip]
      have hix : ix < acc.1.inventory.length := findItemIndex_some_lt _ _ _ _ hf
      have hyes : (getAt default acc.1.inventory ix).available = "Yes" := by
        rcases h.1 ix hix with hv | hv
        · exact hv
        · exfalso
          apply hskip
          rw [hv]
          decide
      exact StoreInv_issueMut acc.1 ix st dp ps nw h hix hyes

theorem StoreInv_batchReturnStep (acc : Store × Nat) (c : String) (h : StoreInv acc.1) :
    StoreInv (batchReturnStep acc c).1 := by
  cases hf : findIssuedIdx acc.1.issued c with
  | none =>
    simp only [batchReturnStep, hf]
    exact h
  | some j =>
    simp only [batchReturnStep, hf]
    exact StoreInv_returnMut acc.1 j h (findIdxOpt_some_lt _ _ _ hf)

theorem StoreInv_foldl_issue (st dp ps nw : String) (codes : List String)
    (acc : Store × Nat) (h : StoreInv acc.1) :
    StoreInv (codes.foldl (batchIssueStep st dp ps nw) acc).1 := by
  induction codes generalizing acc with
  | nil => exact h
  | cons c cs ih => exact ih _ (StoreInv_batchIssueStep st dp ps nw acc c h)

theorem StoreInv_foldl_return (codes : List String) (acc : Store × Nat)
    (h : StoreInv acc.1) :
    StoreInv (codes.foldl batchReturnStep acc).1 := by
  induction codes generalizing acc with
  | nil => exact h
  | cons c cs ih => exact ih _ (StoreInv_batchReturnStep acc c h)

theorem StoreInv_batchIssue (s : Store) (st d p n u : String) (lines : List String)
    (h : StoreInv s) : StoreInv (batchIssue s st d p n u lines).1 := by
  simp only [batchIssue]
  by_cases hst : pyStrip st = ""
  · rw [if_pos hst]
    exact h
  · rw [if_neg hst]
    have hfold := StoreInv_foldl_issue st d p n
      ((lines.map pyStrip).filter (fun c => c ≠ "")) (s, 0) h
    by_cases hc : (((lines.map pyStrip).filter (fun c => c ≠ "")).foldl
        (batchIssueStep st d p n) (s, 0)).2 ≠ 0
    · rw [if_pos hc]
      exact hfold
    · rw [if_neg hc]
      exact hfold

theorem StoreInv_batchReturn (s : Store) (n u : String) (lines : List String)
    (h : StoreInv s) : StoreInv (batchReturn s n u lines).1 := by
  simp only [batchReturn]
  have hfold := StoreInv_foldl_return ((lines.map pyStrip).filter (fun c => c ≠ "")) (s, 0) h
  by_cases hc : (((lines.map pyStrip).filter (fun c => c ≠ "")).foldl
      batchReturnStep (s, 0)).2 ≠ 0
  · rw [if_pos hc]
    exact hfold
  · rw [if_neg hc]
    exact hfold

theorem StoreInv_reachable (s : Store) (h : ReachableR s) : StoreInv s := by
  induction h with
  | empty => exact StoreInv_empty
  | add s f u n _ hf ih => exact StoreInv_saveItem_fresh s f u n ih hf
  | issue s c code st d p n u _ ih => exact StoreInv_doIssue s c code st d p n u ih
  | ret s code u n _ ih => exact StoreInv_doReturn s code u n ih
  | bIssue s st d p n u lines _ ih => exact StoreInv_batchIssue s st d p n u lines ih
  | bReturn s n u lines _ ih => exact StoreInv_batchReturn s n u lines ih

theorem checkInvariantC1_of_StoreInv (s : Store) (h : StoreInv s) :
    checkInvariantC1 s = true := by
  obtain ⟨hA, hI, hS, hB, hC, hR⟩ := h
  rw [checkInvariantC1, List.all_eq_true]
  intro it hit
  obtain ⟨i, hi, hie⟩ := mem_getAt default s.inventory it hit
  subst hie
  have hcnt := hC i hi
  rcases hA i hi with hv | hv
  · rw [hv, if_neg (by decide : ¬("Yes" : String) = "No")] at hcnt
    rw [hv, hcnt]
    decide
  · rw [hv, if_pos rfl] at hcnt
    rw [hv, hcnt]
    decide

/-- C1 counterexample: the invariant is not maintained over the full
operation set the claim quantifies over.  Reachable by add, issue,
merge-add from the empty store: after adding serial "SN9", issuing it,
and adding the same serial again, the merge resets Available to "Yes"
while the issued record still exists, so an item with Available="Yes"
has one matching IssuedRecord. -/
theorem c1_invariant_counterexample :
    checkInvariantC1
      (applyROps emptyStore
        [ROp.add ⟨"W", "", "SN9", "", "", "", "1", "", ""⟩ "u" "t1",
         ROp.issue true "SN9" "alice" "d" "p" "t2" "u",
         ROp.add ⟨"W", "", "SN9", "", "", "", "0", "", ""⟩ "u" "t3"]) = false := by
  decide

/-- C1 (amended): the availability/issued-record invariant — an item has
Available="No" iff exactly one IssuedRecord with the same
serial-or-barcode identity exists, and an item with Available="Yes" has
none — holds for every state reachable from the empty store by adds of a
fresh identity with no explicit Available value, issues, returns, batch
issues and batch returns.  It does not survive the claim's full operation
set: a merge-add onto an issued identity resets Available to "Yes" while
the issued record remains, as the counterexample shows. -/
theorem c1_invariant_restricted (s : Store) (h : ReachableR s) :
    checkInvariantC1 s = true :=
  checkInvariantC1_of_StoreInv s (StoreInv_reachable s h)

def c1wForm : RawForm := ⟨"W", "", "SN9", "", "", "", "1", "", ""⟩

theorem c1_invariant_restricted_witness :
    checkInvariantC1
      (doReturn (doIssue (saveItem emptyStore c1wForm "u" "t1").1 true "SN9" "alice" "d" "p"
          "t2" "u").1 "SN9" "u" "t3").1 = true :=
  c1_invariant_restricted _
    (ReachableR.ret _ "SN9" "u" "t3"
      (ReachableR.issue _ true "SN9" "alice" "d" "p" "t2" "u"
        (ReachableR.add emptyStore c1wForm "u" "t1" ReachableR.empty (by decide))))
